import Mathlib

/-!
Shallow embedding of `avconv_filter.c` (libav's filter-graph configuration
engine) and proofs about it.

Conventions of the embedding:
* C machine integers become `Int`/`Nat` (the code never relies on overflow
  here; `INT64_MAX` is the explicit sentinel `2^63 - 1`);
* sentinel-terminated C arrays become Lean lists; the iteration
  `for (p = list; *p != none; p++)` becomes `List.takeWhile (· ≠ none)`;
* dynamic string buffers become `List Char`; the canonical-name renderers
  (`GET_PIX_FMT_NAME` and friends, external to this file) are abstract
  parameters `getName : α → String`;
* the external filter-execution engine (filter lookup, allocation, option
  setting, linking, graph finalization) is abstracted: functions that only
  describe which nodes get created are modelled on the engine's success
  path, while `configure_filtergraph`, whose control flow routes the
  engine's error codes, takes the callees' return codes as parameters and
  records every call it makes in an event trace.
-/

namespace AvconvFilter

/-! ### String-building helpers

`sepConcat` is one pass of the dynamic-buffer loops: every element is
rendered and followed by the separator character (`avio_printf(s, "%s|", name)`
in `DEF_CHOOSE_FORMAT`, `snprintf(... "key=%s:" ...)` in
`configure_output_audio_filter`).  `joinWith` is the separator-joined form
with no trailing separator, used to state what the buffers contain after the
final `buf[len - 1] = 0` truncation. -/

def sepConcat (sep : Char) : List (List Char) → List Char
  | [] => []
  | c :: cs => c ++ sep :: sepConcat sep cs

def joinWith (sep : Char) : List (List Char) → List Char
  | [] => []
  | [c] => c
  | c :: c2 :: cs => c ++ sep :: joinWith sep (c2 :: cs)

/-! ### `DEF_CHOOSE_FORMAT` — the format choosers

The macro expands, for an attribute `var` with sentinel `none`, to

```
static char *choose_<var>s(OutputStream *ost)
{
    if (ost->st->codec->var != none) {
        get_name(ost->st->codec->var);
        return av_strdup(name);
    } else if (ost->enc && ost->enc->supported_list) {
        ...
        for (p = ost->enc->supported_list; *p != none; p++) {
            get_name(*p);
            avio_printf(s, "%s|", name);
        }
        len = avio_close_dyn_buf(s, &ret);
        ret[len - 1] = 0;
        return ret;
    } else
        return NULL;
}
```

`ChooseInput` packages the two inputs the chooser reads: the codec-context
field (`ost->st->codec->var`) and the encoder's supported list
(`ost->enc` may be NULL, and `ost->enc->supported_list` may be NULL, hence
the two `Option` layers). -/

structure ChooseInput (α : Type) where
  codecVal : α
  enc : Option (Option (List α))
deriving DecidableEq

/-- The elements the chooser's loop actually visits: the prefix of the
sentinel-terminated array before the first sentinel
(`for (p = ost->enc->supported_list; *p != none; p++)`). -/
def chooseTake {α : Type} [DecidableEq α] (noneV : α) (supported : List α) :
    List α :=
  supported.takeWhile (fun x => x ≠ noneV)

/-- The dynamic buffer contents written by the chooser's list loop:
one `name|` group per element before the first sentinel. -/
def chooseBuf {α : Type} [DecidableEq α] (noneV : α) (getName : α → String)
    (supported : List α) : List Char :=
  sepConcat '|' ((chooseTake noneV supported).map (fun x => (getName x).data))

/-- The `len` produced by `avio_close_dyn_buf` in the chooser's list branch. -/
def chooseBufLen {α : Type} [DecidableEq α] (noneV : α) (getName : α → String)
    (supported : List α) : Nat :=
  (chooseBuf noneV getName supported).length

/-- The index of the terminating write `ret[len - 1] = 0`, as a signed
integer: negative means the write lands before the buffer. -/
def chooseWriteIdx {α : Type} [DecidableEq α] (noneV : α) (getName : α → String)
    (supported : List α) : Int :=
  (chooseBufLen noneV getName supported : Int) - 1

/-- The chooser itself.  `none` result = the C function returned NULL
(no constraint). The list branch's `ret[len - 1] = 0` truncation is
`List.dropLast` on the buffer. -/
def choose_format {α : Type} [DecidableEq α] (noneV : α) (getName : α → String)
    (inp : ChooseInput α) : Option String :=
  if inp.codecVal ≠ noneV then
    some (getName inp.codecVal)
  else
    match inp.enc with
    | some (some supported) =>
        some (String.mk ((chooseBuf noneV getName supported).dropLast))
    | some none => none
    | none => none

/-- Instance `DEF_CHOOSE_FORMAT(enum AVPixelFormat, pix_fmt, pix_fmts, AV_PIX_FMT_NONE, ...)`;
`AV_PIX_FMT_NONE = -1`. -/
def choose_pix_fmts (getName : Int → String) (inp : ChooseInput Int) : Option String :=
  choose_format (-1) getName inp

/-- Instance `DEF_CHOOSE_FORMAT(enum AVSampleFormat, sample_fmt, sample_fmts, AV_SAMPLE_FMT_NONE, ...)`;
`AV_SAMPLE_FMT_NONE = -1`. -/
def choose_sample_fmts (getName : Int → String) (inp : ChooseInput Int) : Option String :=
  choose_format (-1) getName inp

/-- Instance `DEF_CHOOSE_FORMAT(int, sample_rate, supported_samplerates, 0, ...)`. -/
def choose_sample_rates (getName : Int → String) (inp : ChooseInput Int) : Option String :=
  choose_format 0 getName inp

/-- Instance `DEF_CHOOSE_FORMAT(uint64_t, channel_layout, channel_layouts, 0, ...)`;
`uint64_t` values are modelled as `Nat`. -/
def choose_channel_layouts (getName : Nat → String) (inp : ChooseInput Nat) : Option String :=
  choose_format 0 getName inp

/-! ### `insert_trim` and the output-chain model

A filter node as created by this file's code: a filter type name, the
creation-time argument string (`NULL` args modelled as `""`), and the
options set afterwards through `av_opt_set_double` (only the trim filter
uses these; the exact rational value of `(double)x / 1e6` is recorded).
A `Chain` is the sequence of nodes this configuration pass has inserted
after the last user-graph node, in link order, together with the
`pad_idx` cursor; appending a node links the previous cursor into it and
moves the cursor to the new node's pad 0, exactly as the C code does with
`last_filter = ctx; pad_idx = 0;`. -/

structure FNode where
  ftype : String
  args : String
  opts : List (String × ℚ)
deriving DecidableEq

structure Chain where
  nodes : List FNode
  pad_idx : Nat
deriving DecidableEq

def appendNode (st : Chain) (n : FNode) : Chain :=
  { nodes := st.nodes ++ [n], pad_idx := 0 }

/-- The two fields of `OutputFile` that `insert_trim` reads:
`recording_time` (µs; `INT64_MAX` = no limit) and `start_time` (µs; `0` =
no offset). -/
structure OutputFile where
  recording_time : Int
  start_time : Int
deriving DecidableEq

def INT64_MAX : Int := 2 ^ 63 - 1

/-- The node `insert_trim` allocates and configures: type `"trim"` for
video, `"atrim"` for audio; `duration` set iff
`recording_time != INT64_MAX`, then `start` set iff `start_time` nonzero
(`if (ret >= 0 && of->start_time)` with `ret >= 0` on the success path);
both values divided by `1e6`. -/
def trimNode (isVideo : Bool) (of : OutputFile) : FNode :=
  { ftype := if isVideo then "trim" else "atrim"
    args := ""
    opts :=
      (if of.recording_time ≠ INT64_MAX then
        [("duration", (of.recording_time : ℚ) / 1000000)] else [])
      ++ (if of.start_time ≠ 0 then
        [("start", (of.start_time : ℚ) / 1000000)] else []) }

/-- Model of `insert_trim` on the engine's success path (filter lookup, allocation,
option setting, init and linking succeed; the engine's failure codes are
routed by `configure_filtergraph` and modelled there).  Mirrors the early
`return 0` when the output file has no recording window
(`of->recording_time == INT64_MAX && !of->start_time`), otherwise splices
exactly one `trimNode` at the cursor. -/
def insert_trim (isVideo : Bool) (of : OutputFile) (st : Chain) : Chain :=
  if of.recording_time = INT64_MAX ∧ of.start_time = 0 then
    st
  else
    appendNode st (trimNode isVideo of)

/-! ### `configure_output_video_filter` -/

/-- Uppercase hexadecimal rendering, as C's `%X`. -/
def hexUpper (n : Nat) : String :=
  String.mk ((Nat.toDigits 16 n).map Char.toUpper)

/-- The fields of `OutputStream` / its codec context read by
`configure_output_video_filter`. -/
structure OVStream where
  codec_width : Int
  codec_height : Int
  sws_flags : Nat
  frame_rate_num : Int
  frame_rate_den : Int
  pix_fmt : ChooseInput Int
  of : OutputFile

/-- Scale arguments `snprintf(args, ..., "%d:%d:0x%X", codec->width, codec->height, ost->sws_flags)`. -/
def scaleArgs (ost : OVStream) : String :=
  toString ost.codec_width ++ ":" ++ toString ost.codec_height ++ ":0x"
    ++ hexUpper ost.sws_flags

/-- Frame-rate arguments `snprintf(args, ..., "fps=%d/%d", ost->frame_rate.num, ost->frame_rate.den)`. -/
def fpsArgs (ost : OVStream) : String :=
  "fps=" ++ toString ost.frame_rate_num ++ "/" ++ toString ost.frame_rate_den

/-- Model of `configure_output_video_filter` on the engine's success path.  The
buffersink is created first in the C code but linked last; the returned
`Chain` lists the inserted nodes in link order, ending with the sink.
`getName` abstracts `GET_PIX_FMT_NAME`. -/
def configure_output_video_filter (getName : Int → String) (ost : OVStream)
    (initialPad : Nat) : Chain :=
  let st0 : Chain := { nodes := [], pad_idx := initialPad }
  let st1 :=
    if ost.codec_width ≠ 0 ∨ ost.codec_height ≠ 0 then
      appendNode st0 { ftype := "scale", args := scaleArgs ost, opts := [] }
    else st0
  let st2 :=
    match choose_pix_fmts getName ost.pix_fmt with
    | some s => appendNode st1 { ftype := "format", args := s, opts := [] }
    | none => st1
  let st3 :=
    if ost.frame_rate_num ≠ 0 then
      appendNode st2 { ftype := "fps", args := fpsArgs ost, opts := [] }
    else st2
  let st4 := insert_trim true ost.of st3
  appendNode st4 { ftype := "buffersink", args := "", opts := [] }

/-! ### `configure_output_audio_filter` -/

/-- The supported-value lists hanging off `ost->enc` that the audio
configurer's three chooser calls read (each may be NULL). -/
structure EncACtx where
  sample_fmts : Option (List Int)
  supported_samplerates : Option (List Int)
  channel_layouts : Option (List Nat)

/-- The fields of `OutputStream` / its codec context read by
`configure_output_audio_filter`. -/
structure OAStream where
  codec_channels : Int
  codec_channel_layout : Nat
  codec_sample_fmt : Int
  codec_sample_rate : Int
  enc : Option EncACtx
  of : OutputFile

/-- The `key=value` clauses present in the `aformat` argument buffer, in
the fixed order the code writes them: sample_fmts, sample_rates,
channel_layouts; absent (NULL) constraints contribute nothing. -/
def aformatClauses (fmts rates layouts : Option String) : List (List Char) :=
  (fmts.toList.map (fun s => ("sample_fmts=" ++ s).data))
    ++ (rates.toList.map (fun s => ("sample_rates=" ++ s).data))
    ++ (layouts.toList.map (fun s => ("channel_layouts=" ++ s).data))

/-- The `aformat` argument buffer: each present constraint contributes a
`key=value:` clause, then `args[len - 1] = 0` drops the trailing colon. -/
def aformatArgs (fmts rates layouts : Option String) : String :=
  String.mk ((sepConcat ':' (aformatClauses fmts rates layouts)).dropLast)

/-- Model of `configure_output_audio_filter` on the engine's success path.
`defaultLayout` abstracts `av_get_default_channel_layout`; the C code
first overwrites `codec->channel_layout` with it when a channel count is
set but no layout, and the channel-layout chooser then reads the
overwritten field.  `gnF`, `gnR`, `gnL` abstract the three name
renderers. -/
def configure_output_audio_filter (gnF gnR : Int → String) (gnL : Nat → String)
    (defaultLayout : Int → Nat) (ost : OAStream) (initialPad : Nat) : Chain :=
  let codecLayout :=
    if ost.codec_channels ≠ 0 ∧ ost.codec_channel_layout = 0 then
      defaultLayout ost.codec_channels
    else ost.codec_channel_layout
  let sample_fmts :=
    choose_sample_fmts gnF ⟨ost.codec_sample_fmt, ost.enc.map (fun e => e.sample_fmts)⟩
  let sample_rates :=
    choose_sample_rates gnR ⟨ost.codec_sample_rate, ost.enc.map (fun e => e.supported_samplerates)⟩
  let channel_layouts :=
    choose_channel_layouts gnL ⟨codecLayout, ost.enc.map (fun e => e.channel_layouts)⟩
  let st0 : Chain := { nodes := [], pad_idx := initialPad }
  let st1 :=
    if sample_fmts.isSome ∨ sample_rates.isSome ∨ channel_layouts.isSome then
      appendNode st0
        { ftype := "aformat"
          args := aformatArgs sample_fmts sample_rates channel_layouts
          opts := [] }
    else st0
  let st2 := insert_trim false ost.of st1
  appendNode st2 { ftype := "abuffersink", args := "", opts := [] }

/-! ### `init_input_filter` — unlabeled binding

The unlabeled branch of `init_input_filter`:

```
for (i = 0; i < nb_input_streams; i++) {
    ist = input_streams[i];
    if (ist->st->codec->codec_type == type && ist->discard)
        break;
}
if (i == nb_input_streams) { av_log(...); exit(1); }
...
ist->discard         = 0;
ist->decoding_needed = 1;
```

The labeled (`in->name`) branch resolves through the external
`check_stream_specifier` predicate and is not needed by the claims.
`exit(1)` is modelled as the `none` result. -/

inductive MediaType where
  | video
  | audio
  | other
deriving DecidableEq

structure IStream where
  codec_type : MediaType
  discard : Bool
  decoding_needed : Bool
deriving DecidableEq

/-- The selection loop: index of the first stream of the required type
whose `discard` flag is set. -/
def firstUnused (t : MediaType) : List IStream → Option Nat
  | [] => none
  | s :: rest =>
      if s.codec_type = t ∧ s.discard then some 0
      else (firstUnused t rest).map (fun i => i + 1)

/-- Unlabeled binding: select the first unused stream of the required
type, clear its `discard` flag and set `decoding_needed`; `none` is the
fatal `exit(1)` when no such stream remains.  Returns the chosen index
and the updated stream list. -/
def init_input_filter_unlabeled (t : MediaType) (streams : List IStream) :
    Option (Nat × List IStream) :=
  match firstUnused t streams with
  | some i =>
      match streams[i]? with
      | some s =>
          some (i, streams.set i { s with discard := false, decoding_needed := true })
      | none => none
  | none => none

/-! ### `init_simple_filtergraph`

Pointers become indices: a stream is an id (`Nat`), a graph's
back-reference is its registry index, and `ost->filter` / `ist->filters`
hold the same `InputFilterRef`/`OutputFilterRef` records the graph's own
lists hold. -/

structure InputFilterRef where
  ist : Nat
  graph : Nat
deriving DecidableEq

structure OutputFilterRef where
  ost : Nat
  graph : Nat
deriving DecidableEq

structure FilterGraphRec where
  index : Nat
  inputs : List InputFilterRef
  outputs : List OutputFilterRef
  graph_desc : Option String
deriving DecidableEq

/-- The pieces of global / stream state `init_simple_filtergraph`
touches: the global graph registry (`filtergraphs`), the input stream's
consuming-filter list (`ist->filters`), and the output stream's bound
filter (`ost->filter`). -/
structure SimpleFGResult where
  fg : FilterGraphRec
  filtergraphs : List FilterGraphRec
  ist_filters : List InputFilterRef
  ost_filter : Option OutputFilterRef
deriving DecidableEq

/-- Model of `init_simple_filtergraph(ist, ost)`: allocate a graph with
`index = nb_filtergraphs`, give it one `OutputFilter` bound to `ost` and
one `InputFilter` bound to `ist` (both back-referencing the graph),
point `ost->filter` at the new output filter, append the input filter to
`ist->filters`, and append the graph to the global registry.
A simple graph has `graph_desc = NULL`. -/
def init_simple_filtergraph (filtergraphs : List FilterGraphRec)
    (ist_filters : List InputFilterRef) (istId ostId : Nat) : SimpleFGResult :=
  let idx := filtergraphs.length
  let ofilter : OutputFilterRef := { ost := ostId, graph := idx }
  let ifilter : InputFilterRef := { ist := istId, graph := idx }
  let fg : FilterGraphRec :=
    { index := idx, inputs := [ifilter], outputs := [ofilter], graph_desc := none }
  { fg := fg
    filtergraphs := filtergraphs ++ [fg]
    ist_filters := ist_filters ++ [ifilter]
    ost_filter := some ofilter }

/-! ### `configure_filtergraph` — control flow

The orchestrator's routing of its callees' return codes is what claims
about it concern, so the callees are abstracted to their return codes
(`inputRes i` = `configure_input_filter` on input `i`, `outputRes i` =
`configure_output_filter` on output `i`, `graphCfgRes` =
`avfilter_graph_config`), the external `avfilter_graph_parse2` to an
`Except` of endpoint counts, and every call made is recorded in an event
trace.  Allocation failure of the graph handle (`AVERROR(ENOMEM)` before
parsing) is an uninteresting prefix and is omitted. -/

inductive CfgEvent where
  /-- Event recording that `init_input_filter(fg, cur)` ran for input endpoint `i`. -/
  | initInput (i : Nat)
  /-- Event recording that `configure_input_filter(fg, fg->inputs[i], cur)` ran and returned `r`. -/
  | cfgInput (i : Nat) (r : Int)
  /-- Event recording that `configure_output_filter(fg, fg->outputs[i], cur)` ran and returned `r`. -/
  | cfgOutput (i : Nat) (r : Int)
  /-- Event recording that `avfilter_graph_config(fg->graph, NULL)` ran. -/
  | graphFinalize
  /-- output endpoint `i` was wrapped in a fresh unbound `OutputFilter`
  (`out_tmp`) for late binding. -/
  | stashOutput (i : Nat)
deriving DecidableEq

def AVERROR_EINVAL : Int := -22

/-- The input-configuration loop starting at index `i` with `k` endpoints
left: each iteration records its call; a negative return stops the loop
and is returned (`if ((ret = configure_input_filter(...)) < 0) return ret;`). -/
def runInputCfg (res : Nat → Int) (i : Nat) : Nat → List CfgEvent × Option Int
  | 0 => ([], none)
  | k + 1 =>
      if res i < 0 then ([CfgEvent.cfgInput i (res i)], some (res i))
      else
        let rest := runInputCfg res (i + 1) k
        (CfgEvent.cfgInput i (res i) :: rest.1, rest.2)

/-- Model of `configure_filtergraph(fg)`.  `simple = !fg->graph_desc`,
`init = !fg->graph` (first pass).  Note the output loop
`for (cur = outputs, i = 0; cur; cur = cur->next, i++)
 configure_output_filter(fg, fg->outputs[i], cur);`
discards `configure_output_filter`'s return value. -/
def configure_filtergraph (simple init : Bool)
    (parse : Except Int (Nat × Nat)) (inputRes outputRes : Nat → Int)
    (graphCfgRes : Int) : List CfgEvent × Int :=
  match parse with
  | Except.error e => ([], e)
  | Except.ok (nIn, nOut) =>
      if simple = true ∧ ¬(nIn = 1 ∧ nOut = 1) then
        ([], AVERROR_EINVAL)
      else
        let initEvs :=
          if simple = false ∧ init = true then
            (List.range nIn).map CfgEvent.initInput
          else []
        let inp := runInputCfg inputRes 0 nIn
        match inp.2 with
        | some e => (initEvs ++ inp.1, e)
        | none =>
            if init = false ∨ simple = true then
              let outEvs := (List.range nOut).map
                (fun i => CfgEvent.cfgOutput i (outputRes i))
              let evs := initEvs ++ inp.1 ++ outEvs ++ [CfgEvent.graphFinalize]
              if graphCfgRes < 0 then (evs, graphCfgRes) else (evs, 0)
            else
              (initEvs ++ inp.1 ++ (List.range nOut).map CfgEvent.stashOutput, 0)

/-! ## Helper lemmas -/

theorem sepConcat_ne_nil (sep : Char) (c : List Char) (cs : List (List Char)) :
    sepConcat sep (c :: cs) ≠ [] := by
  simp [sepConcat]

theorem sepConcat_dropLast (sep : Char) :
    ∀ cs : List (List Char), cs ≠ [] →
      (sepConcat sep cs).dropLast = joinWith sep cs
  | [], h => absurd rfl h
  | [c], _ => by
      simp [sepConcat, joinWith]
  | c :: c2 :: cs, _ => by
      have ih := sepConcat_dropLast sep (c2 :: cs) (by simp)
      have hne : sep :: sepConcat sep (c2 :: cs) ≠ [] := by simp
      calc (sepConcat sep (c :: c2 :: cs)).dropLast
          = (c ++ sep :: sepConcat sep (c2 :: cs)).dropLast := rfl
        _ = c ++ (sep :: sepConcat sep (c2 :: cs)).dropLast :=
            List.dropLast_append_of_ne_nil c hne
        _ = c ++ sep :: (sepConcat sep (c2 :: cs)).dropLast := by
            rw [List.dropLast_cons_of_ne_nil (sepConcat_ne_nil sep c2 cs)]
        _ = c ++ sep :: joinWith sep (c2 :: cs) := by rw [ih]
        _ = joinWith sep (c :: c2 :: cs) := rfl

theorem sepConcat_length_pos (sep : Char) (c : List Char) (cs : List (List Char)) :
    0 < (sepConcat sep (c :: cs)).length := by
  simp [sepConcat]

/-! ## Claim theorems -/

/-- C1 (code bug): the spec says a negative error code from configuring an
output filter is returned by `configure_filtergraph` to its caller, but the
code discards `configure_output_filter`'s return value
(`for (cur = outputs, i = 0; cur; cur = cur->next, i++)
  configure_output_filter(fg, fg->outputs[i], cur);` — contrast the input
loop, which checks it).  On a simple graph whose single output filter fails
with `AVERROR(EINVAL)`, the function still proceeds to graph finalization
and returns 0. -/
theorem configure_filtergraph_drops_output_error :
    configure_filtergraph true true (Except.ok (1, 1)) (fun _ => 0)
      (fun _ => AVERROR_EINVAL) 0
      = ([CfgEvent.cfgInput 0 0, CfgEvent.cfgOutput 0 AVERROR_EINVAL,
          CfgEvent.graphFinalize], 0) := by
  decide

/-- C2: a simple (auto-generated) graph whose parse does not yield exactly
one input endpoint and exactly one output endpoint is rejected with
`AVERROR(EINVAL)`; the empty event trace shows that no input binding, no
input or output configurer, and no graph finalization ran, hence no
source/sink/conversion node was created. -/
theorem configure_filtergraph_simple_endpoint_check (init : Bool)
    (inputRes outputRes : Nat → Int) (graphCfgRes : Int) (nIn nOut : Nat)
    (h : ¬(nIn = 1 ∧ nOut = 1)) :
    configure_filtergraph true init (Except.ok (nIn, nOut)) inputRes outputRes
      graphCfgRes = ([], AVERROR_EINVAL) := by
  simp [configure_filtergraph, h]

theorem configure_filtergraph_simple_endpoint_check_witness :
    configure_filtergraph true true (Except.ok (2, 1)) (fun _ => 0) (fun _ => 0)
      0 = ([], AVERROR_EINVAL) :=
  configure_filtergraph_simple_endpoint_check true (fun _ => 0) (fun _ => 0) 0 2 1
    (by decide)

/-- C10: `init_simple_filtergraph` produces a graph with exactly one
`InputFilter` bound to the given input stream and exactly one
`OutputFilter` bound to the given output stream, both back-referencing the
graph; it points `ost->filter` at the new output filter, appends the new
input filter to `ist->filters`, and appends the graph to the global
registry at position `fg->index = nb_filtergraphs`. -/
theorem init_simple_filtergraph_spec (filtergraphs : List FilterGraphRec)
    (ist_filters : List InputFilterRef) (istId ostId : Nat) :
    (init_simple_filtergraph filtergraphs ist_filters istId ostId).fg.inputs
        = [{ ist := istId,
             graph := (init_simple_filtergraph filtergraphs ist_filters istId ostId).fg.index }] ∧
    (init_simple_filtergraph filtergraphs ist_filters istId ostId).fg.outputs
        = [{ ost := ostId,
             graph := (init_simple_filtergraph filtergraphs ist_filters istId ostId).fg.index }] ∧
    (init_simple_filtergraph filtergraphs ist_filters istId ostId).ost_filter
        = ((init_simple_filtergraph filtergraphs ist_filters istId ostId).fg.outputs)[0]? ∧
    (init_simple_filtergraph filtergraphs ist_filters istId ostId).ist_filters
        = ist_filters
            ++ (init_simple_filtergraph filtergraphs ist_filters istId ostId).fg.inputs ∧
    (init_simple_filtergraph filtergraphs ist_filters istId ostId).filtergraphs
        = filtergraphs
            ++ [(init_simple_filtergraph filtergraphs ist_filters istId ostId).fg] ∧
    (init_simple_filtergraph filtergraphs ist_filters istId ostId).fg.index
        = filtergraphs.length ∧
    ((init_simple_filtergraph filtergraphs ist_filters istId ostId).filtergraphs)[
        (init_simple_filtergraph filtergraphs ist_filters istId ostId).fg.index]?
        = some (init_simple_filtergraph filtergraphs ist_filters istId ostId).fg := by
  refine ⟨rfl, rfl, rfl, rfl, rfl, rfl, ?_⟩
  exact List.getElem?_concat_length filtergraphs _

/-- C5: when the owning output file specifies neither a finite recording
duration nor a nonzero start offset, `insert_trim` adds no node and leaves
the last-node/pad cursor unchanged; when it does specify a window,
`insert_trim` adds exactly one node — `trim` for video, `atrim` for audio —
whose `duration` option is set to `recording_time / 1e6` exactly when the
duration is finite and whose `start` option is set to `start_time / 1e6`
exactly when the offset is nonzero, with no other options. -/
theorem insert_trim_spec (isVideo : Bool) (of : OutputFile) (st : Chain) :
    (of.recording_time = INT64_MAX ∧ of.start_time = 0 →
      insert_trim isVideo of st = st) ∧
    (¬(of.recording_time = INT64_MAX ∧ of.start_time = 0) →
      ∃ n : FNode,
        (insert_trim isVideo of st).nodes = st.nodes ++ [n] ∧
        (insert_trim isVideo of st).pad_idx = 0 ∧
        n.ftype = (if isVideo then "trim" else "atrim") ∧
        n.args = "" ∧
        n.opts.lookup "duration"
          = (if of.recording_time ≠ INT64_MAX then
              some ((of.recording_time : ℚ) / 1000000) else none) ∧
        n.opts.lookup "start"
          = (if of.start_time ≠ 0 then
              some ((of.start_time : ℚ) / 1000000) else none) ∧
        n.opts.length = (if of.recording_time ≠ INT64_MAX then 1 else 0)
          + (if of.start_time ≠ 0 then 1 else 0)) := by
  constructor
  · intro h
    simp [insert_trim, h]
  · intro h
    refine ⟨trimNode isVideo of, ?_, ?_, rfl, rfl, ?_, ?_, ?_⟩
    · simp [insert_trim, h, appendNode]
    · simp [insert_trim, h, appendNode]
    · by_cases hd : of.recording_time = INT64_MAX <;>
        by_cases hs : of.start_time = 0 <;>
        simp_all [trimNode, List.lookup]
    · by_cases hd : of.recording_time = INT64_MAX <;>
        by_cases hs : of.start_time = 0 <;>
        simp_all [trimNode, List.lookup]
    · by_cases hd : of.recording_time = INT64_MAX <;>
        by_cases hs : of.start_time = 0 <;>
        simp_all [trimNode]

theorem insert_trim_spec_witness :
    insert_trim true { recording_time := INT64_MAX, start_time := 0 }
        { nodes := [], pad_idx := 3 } = { nodes := [], pad_idx := 3 } ∧
    ∃ n : FNode,
      (insert_trim true { recording_time := INT64_MAX, start_time := 2000000 }
          { nodes := [], pad_idx := 3 }).nodes = [] ++ [n] ∧
      n.ftype = "trim" ∧
      n.opts.lookup "duration" = none ∧
      n.opts.lookup "start" = some 2 := by
  constructor
  · exact (insert_trim_spec true { recording_time := INT64_MAX, start_time := 0 }
      { nodes := [], pad_idx := 3 }).1 ⟨rfl, rfl⟩
  · obtain ⟨n, hn, -, hft, -, hdur, hstart, -⟩ :=
      (insert_trim_spec true { recording_time := INT64_MAX, start_time := 2000000 }
        { nodes := [], pad_idx := 3 }).2 (by norm_num)
    refine ⟨n, hn, by simpa using hft, by simpa using hdur, ?_⟩
    rw [hstart]
    norm_num

/-- Shared list-branch computation of the choosers: with the attribute
unset and a declared list none of whose entries is the sentinel, the
chooser returns the names joined by the separator with no trailing
separator. -/
theorem choose_format_constrained {α : Type} [DecidableEq α] (noneV : α)
    (getName : α → String) (l : List α) (hl : l ≠ []) (hnone : noneV ∉ l) :
    choose_format noneV getName { codecVal := noneV, enc := some (some l) }
      = some (String.mk (joinWith '|' (l.map fun x => (getName x).data))) := by
  have htw : chooseTake noneV l = l := by
    refine List.takeWhile_eq_self_iff.mpr ?_
    intro x hx
    simp only [decide_eq_true_eq]
    exact fun hxe => hnone (hxe ▸ hx)
  have hmap : (l.map fun x => (getName x).data) ≠ [] := by
    simpa using hl
  simp only [choose_format, chooseBuf, htw, ne_eq, not_true_eq_false, if_false]
  rw [sepConcat_dropLast '|' _ hmap]

/-- C3: for an attribute that is not already fixed and an encoder that
declares a non-empty supported-value list, each of the four generated
choosers (`choose_pix_fmts`, `choose_sample_fmts`, `choose_sample_rates`,
`choose_channel_layouts`) returns the string holding exactly the names of
the listed values joined by `|` with no trailing separator.  The sentinels
are `AV_PIX_FMT_NONE = -1`, `AV_SAMPLE_FMT_NONE = -1`, `0`, and `0`;
a well-formed declared list contains no sentinel. -/
theorem choose_format_list_spec :
    (∀ (getName : Int → String) (l : List Int), l ≠ [] → (-1 : Int) ∉ l →
      choose_pix_fmts getName { codecVal := -1, enc := some (some l) }
        = some (String.mk (joinWith '|' (l.map fun x => (getName x).data)))) ∧
    (∀ (getName : Int → String) (l : List Int), l ≠ [] → (-1 : Int) ∉ l →
      choose_sample_fmts getName { codecVal := -1, enc := some (some l) }
        = some (String.mk (joinWith '|' (l.map fun x => (getName x).data)))) ∧
    (∀ (getName : Int → String) (l : List Int), l ≠ [] → (0 : Int) ∉ l →
      choose_sample_rates getName { codecVal := 0, enc := some (some l) }
        = some (String.mk (joinWith '|' (l.map fun x => (getName x).data)))) ∧
    (∀ (getName : Nat → String) (l : List Nat), l ≠ [] → (0 : Nat) ∉ l →
      choose_channel_layouts getName { codecVal := 0, enc := some (some l) }
        = some (String.mk (joinWith '|' (l.map fun x => (getName x).data)))) :=
  ⟨fun g l hl hn => choose_format_constrained (-1) g l hl hn,
   fun g l hl hn => choose_format_constrained (-1) g l hl hn,
   fun g l hl hn => choose_format_constrained 0 g l hl hn,
   fun g l hl hn => choose_format_constrained 0 g l hl hn⟩

theorem choose_format_list_spec_witness :
    choose_pix_fmts (fun x => toString x) { codecVal := -1, enc := some (some [0, 25]) }
      = some (String.mk (joinWith '|'
          (([0, 25] : List Int).map fun x => (toString x).data))) :=
  choose_format_list_spec.1 (fun x => toString x) [0, 25] (by decide) (by decide)

/-- C4: when the codec-context field already fixes the attribute (differs
from the sentinel), the chooser returns exactly the fixed value's name,
whatever the encoder's supported list holds — including no list at all;
and when the attribute is unset and no supported list is declared
(`ost->enc` NULL, or its list pointer NULL), the chooser returns NULL. -/
theorem choose_format_fixed_spec {α : Type} [DecidableEq α] (noneV : α)
    (getName : α → String) (inp : ChooseInput α) :
    (inp.codecVal ≠ noneV →
      choose_format noneV getName inp = some (getName inp.codecVal)) ∧
    (inp.codecVal = noneV → inp.enc = none ∨ inp.enc = some none →
      choose_format noneV getName inp = none) := by
  constructor
  · intro h
    simp [choose_format, h]
  · rintro h (henc | henc) <;> simp [choose_format, h, henc]

theorem choose_format_fixed_spec_witness :
    choose_format (-1 : Int) (fun x : Int => toString x)
        { codecVal := 5, enc := some (some [1, 2]) }
      = some (toString (5 : Int)) ∧
    choose_format (-1 : Int) (fun x : Int => toString x)
        { codecVal := -1, enc := none }
      = none :=
  ⟨(choose_format_fixed_spec (-1 : Int) (fun x : Int => toString x)
      { codecVal := 5, enc := some (some [1, 2]) }).1 (by decide),
   (choose_format_fixed_spec (-1 : Int) (fun x : Int => toString x)
      { codecVal := -1, enc := none }).2 rfl (Or.inl rfl)⟩

/-- C9: in the chooser's list-building branch, the terminating write
`ret[len - 1] = 0` lands at signed index `len - 1`.  When the declared
supported list starts with the sentinel (an effectively empty list), the
loop runs zero times, `len = 0`, and the write index is `-1` — before the
buffer, out of bounds; when the effective list is non-empty the write
index is always within `[0, len)`.  So the branch is safe exactly under
the precondition that every declared supported-value list is non-empty. -/
theorem choose_format_write_bounds {α : Type} [DecidableEq α] (noneV : α)
    (getName : α → String) (supported : List α) :
    (chooseTake noneV supported = [] →
      chooseBufLen noneV getName supported = 0 ∧
      chooseWriteIdx noneV getName supported = -1 ∧
      chooseWriteIdx noneV getName supported < 0) ∧
    (chooseTake noneV supported ≠ [] →
      0 ≤ chooseWriteIdx noneV getName supported ∧
      chooseWriteIdx noneV getName supported
        < chooseBufLen noneV getName supported) := by
  constructor
  · intro h
    refine ⟨?_, ?_, ?_⟩ <;>
      simp [chooseBufLen, chooseWriteIdx, chooseBuf, h, sepConcat]
  · intro h
    obtain ⟨c, cs, hcons⟩ :=
      List.exists_cons_of_ne_nil h
    have hpos : 0 < chooseBufLen noneV getName supported := by
      rw [chooseBufLen, chooseBuf, hcons]
      exact sepConcat_length_pos '|' (getName c).data
        (cs.map fun x => (getName x).data)
    constructor
    · simp only [chooseWriteIdx]
      omega
    · simp only [chooseWriteIdx]
      omega

theorem choose_format_write_bounds_witness :
    (chooseBufLen (-1 : Int) (fun x => toString x) [-1, 3] = 0 ∧
      chooseWriteIdx (-1 : Int) (fun x => toString x) [-1, 3] = -1 ∧
      chooseWriteIdx (-1 : Int) (fun x => toString x) [-1, 3] < 0) ∧
    (0 ≤ chooseWriteIdx (-1 : Int) (fun x => toString x) [3] ∧
      chooseWriteIdx (-1 : Int) (fun x => toString x) [3]
        < chooseBufLen (-1 : Int) (fun x => toString x) [3]) :=
  ⟨(choose_format_write_bounds (-1) (fun x => toString x) [-1, 3]).1 (by decide),
   (choose_format_write_bounds (-1) (fun x => toString x) [3]).2 (by decide)⟩

/-- Soundness of `firstUnused`: it returns the index of a stream of the required
type and currently discarded, and no smaller index qualifies. -/
theorem firstUnused_some (t : MediaType) :
    ∀ (l : List IStream) (i : Nat), firstUnused t l = some i →
      ∃ s, l[i]? = some s ∧ s.codec_type = t ∧ s.discard = true ∧
        ∀ j : Nat, j < i → ∀ s2 : IStream, l[j]? = some s2 →
          ¬(s2.codec_type = t ∧ s2.discard = true)
  | [], i, h => by simp [firstUnused] at h
  | s :: rest, i, h => by
      by_cases hp : s.codec_type = t ∧ s.discard
      · rw [firstUnused, if_pos hp] at h
        obtain rfl : (0 : Nat) = i := by injection h
        exact ⟨s, by simp, hp.1, hp.2, fun j hj => absurd hj (by omega)⟩
      · rw [firstUnused, if_neg hp] at h
        obtain ⟨i2, hi2, rfl⟩ : ∃ i2, firstUnused t rest = some i2 ∧ i = i2 + 1 := by
          cases hfr : firstUnused t rest with
          | none => rw [hfr] at h; simp at h
          | some i2 => rw [hfr] at h; simp at h; exact ⟨i2, rfl, h.symm⟩
        obtain ⟨s2, hs2, ht2, hd2, hmin⟩ := firstUnused_some t rest i2 hi2
        refine ⟨s2, by simpa using hs2, ht2, hd2, ?_⟩
        intro j hj s3 hs3
        cases j with
        | zero =>
            obtain rfl : s = s3 := by simpa using hs3
            exact fun hc => hp ⟨hc.1, hc.2⟩
        | succ j2 =>
            exact hmin j2 (by omega) s3 (by simpa using hs3)

/-- When `firstUnused` finds nothing, no stream of the required type is
still discarded. -/
theorem firstUnused_none (t : MediaType) :
    ∀ l : List IStream, firstUnused t l = none →
      ∀ (j : Nat) (s : IStream), l[j]? = some s →
        ¬(s.codec_type = t ∧ s.discard = true)
  | [], _, j, s, h2 => by simp at h2
  | s0 :: rest, h, j, s, h2 => by
      rw [firstUnused] at h
      by_cases hp : s0.codec_type = t ∧ s0.discard
      · rw [if_pos hp] at h
        exact absurd h (by simp)
      · rw [if_neg hp] at h
        have hrest : firstUnused t rest = none := by
          cases hfr : firstUnused t rest with
          | none => rfl
          | some i2 => rw [hfr] at h; simp at h
        cases j with
        | zero =>
            obtain rfl : s0 = s := by simpa using h2
            exact fun hc => hp ⟨hc.1, hc.2⟩
        | succ j2 =>
            exact firstUnused_none t rest hrest j2 s (by simpa using h2)

/-- C8: binding an unlabeled input endpoint of required type `t` selects
the first stream (in stream-list order) of type `t` whose discard flag is
set at binding time, clears that stream's discard flag, marks it
decoding-needed, and changes no other stream; consequently no later
unlabeled binding — of any required type — can select the stream this
binding took.  When no discarded stream of type `t` remains, the binding
fails fatally (`exit(1)`, modelled as `none`). -/
theorem init_input_filter_unlabeled_spec (t : MediaType) (streams : List IStream) :
    (∀ (i : Nat) (streams2 : List IStream),
      init_input_filter_unlabeled t streams = some (i, streams2) →
      ∃ s, streams[i]? = some s ∧ s.codec_type = t ∧ s.discard = true ∧
        (∀ j : Nat, j < i → ∀ s2 : IStream, streams[j]? = some s2 →
          ¬(s2.codec_type = t ∧ s2.discard = true)) ∧
        streams2[i]? = some { s with discard := false, decoding_needed := true } ∧
        (∀ j : Nat, j ≠ i → streams2[j]? = streams[j]?) ∧
        (∀ t2, firstUnused t2 streams2 ≠ some i)) ∧
    (init_input_filter_unlabeled t streams = none →
      ∀ (j : Nat) (s : IStream), streams[j]? = some s →
        ¬(s.codec_type = t ∧ s.discard = true)) := by
  constructor
  · intro i streams2 h
    rw [init_input_filter_unlabeled] at h
    cases hfu : firstUnused t streams with
    | none => simp only [hfu] at h; exact absurd h (by simp)
    | some i0 =>
        obtain ⟨s0, hs0, ht0, hd0, hmin0⟩ := firstUnused_some t streams i0 hfu
        simp only [hfu, hs0, Option.some.injEq, Prod.mk.injEq] at h
        obtain ⟨rfl, rfl⟩ := h
        have hlt : i0 < streams.length := by
          have h2 := List.getElem?_eq_some.mp hs0
          exact h2.1
        refine ⟨s0, hs0, ht0, hd0, hmin0, ?_, ?_, ?_⟩
        · exact List.getElem?_set_self hlt
        · intro j hj
          exact List.getElem?_set_ne (fun he => hj he.symm)
        · intro t2 hc
          obtain ⟨s3, hs3, -, hd3, -⟩ :=
            firstUnused_some t2 _ i0 hc
          rw [List.getElem?_set_self hlt] at hs3
          obtain rfl : { s0 with discard := false, decoding_needed := true } = s3 := by
            injection hs3
          simp at hd3
  · intro h j s hjs
    rw [init_input_filter_unlabeled] at h
    cases hfu : firstUnused t streams with
    | none => exact firstUnused_none t streams hfu j s hjs
    | some i0 =>
        obtain ⟨s0, hs0, -⟩ := firstUnused_some t streams i0 hfu
        simp only [hfu, hs0] at h
        exact absurd h (by simp)

theorem init_input_filter_unlabeled_spec_witness :
    ∃ s, ([{ codec_type := MediaType.video, discard := true, decoding_needed := false },
           { codec_type := MediaType.audio, discard := true, decoding_needed := false }] :
            List IStream)[1]? = some s ∧
      s.codec_type = MediaType.audio ∧ s.discard = true ∧
      (∀ j, j < 1 →
        ∀ s2, ([{ codec_type := MediaType.video, discard := true, decoding_needed := false },
                { codec_type := MediaType.audio, discard := true, decoding_needed := false }] :
                 List IStream)[j]? = some s2 →
          ¬(s2.codec_type = MediaType.audio ∧ s2.discard = true)) ∧
      ([{ codec_type := MediaType.video, discard := true, decoding_needed := false },
        { codec_type := MediaType.audio, discard := false, decoding_needed := true }] :
         List IStream)[1]?
        = some { s with discard := false, decoding_needed := true } ∧
      (∀ j, j ≠ 1 →
        ([{ codec_type := MediaType.video, discard := true, decoding_needed := false },
          { codec_type := MediaType.audio, discard := false, decoding_needed := true }] :
           List IStream)[j]?
          = ([{ codec_type := MediaType.video, discard := true, decoding_needed := false },
              { codec_type := MediaType.audio, discard := true, decoding_needed := false }] :
               List IStream)[j]?) ∧
      (∀ t2, firstUnused t2
          [{ codec_type := MediaType.video, discard := true, decoding_needed := false },
           { codec_type := MediaType.audio, discard := false, decoding_needed := true }]
        ≠ some 1) :=
  (init_input_filter_unlabeled_spec MediaType.audio
    [{ codec_type := MediaType.video, discard := true, decoding_needed := false },
     { codec_type := MediaType.audio, discard := true, decoding_needed := false }]).1
    1
    [{ codec_type := MediaType.video, discard := true, decoding_needed := false },
     { codec_type := MediaType.audio, discard := false, decoding_needed := true }]
    (by decide)

/-- C6: the nodes `configure_output_video_filter` inserts between the last
user-graph node and the sink appear in the fixed order scale →
pixel-format → frame-rate → trim → sink; each is present exactly when its
condition holds (explicit width/height; pixel-format negotiation returned
a constraint; fixed output frame rate; recording window), each insertion
resets the pad cursor to 0, and the chain always ends at the sink. -/
theorem configure_output_video_filter_spec (getName : Int → String)
    (ost : OVStream) (p : Nat) :
    (configure_output_video_filter getName ost p).nodes =
      (if ost.codec_width ≠ 0 ∨ ost.codec_height ≠ 0 then
        [{ ftype := "scale", args := scaleArgs ost, opts := [] }] else []) ++
      (match choose_pix_fmts getName ost.pix_fmt with
        | some s => [{ ftype := "format", args := s, opts := [] }]
        | none => []) ++
      (if ost.frame_rate_num ≠ 0 then
        [{ ftype := "fps", args := fpsArgs ost, opts := [] }] else []) ++
      (if ost.of.recording_time = INT64_MAX ∧ ost.of.start_time = 0 then []
        else [trimNode true ost.of]) ++
      [{ ftype := "buffersink", args := "", opts := [] }] ∧
    (configure_output_video_filter getName ost p).pad_idx = 0 := by
  by_cases h1 : ost.codec_width ≠ 0 ∨ ost.codec_height ≠ 0 <;>
    rcases h2 : choose_pix_fmts getName ost.pix_fmt with - | s <;>
    by_cases h3 : ost.frame_rate_num ≠ 0 <;>
    by_cases h4 : ost.of.recording_time = INT64_MAX ∧ ost.of.start_time = 0 <;>
    simp [configure_output_video_filter, insert_trim, appendNode, h1, h2, h3, h4]

/-- When at least one constraint is present, the clause list of the
`aformat` argument buffer is non-empty. -/
theorem aformatClauses_ne_nil (fmts rates layouts : Option String)
    (h : fmts.isSome ∨ rates.isSome ∨ layouts.isSome) :
    aformatClauses fmts rates layouts ≠ [] := by
  cases fmts <;> cases rates <;> cases layouts <;> simp_all [aformatClauses]

/-- Filtering the audio output chain for `aformat` nodes: the combined
format node is the only one, present exactly when the condition that
guarded its insertion held. -/
theorem filter_aformat_chain (c : Prop) [Decidable c] (a : String)
    (of : OutputFile) (p : Nat) :
    ((appendNode (insert_trim false of
        (if c then
          appendNode { nodes := [], pad_idx := p }
            { ftype := "aformat", args := a, opts := [] }
        else { nodes := [], pad_idx := p }))
      { ftype := "abuffersink", args := "", opts := [] }).nodes.filter
        (fun n => n.ftype == "aformat"))
      = if c then [{ ftype := "aformat", args := a, opts := [] }] else [] := by
  by_cases hc : c <;>
    by_cases h4 : of.recording_time = INT64_MAX ∧ of.start_time = 0 <;>
    simp [insert_trim, appendNode, trimNode, hc, h4]

/-- C7: `configure_output_audio_filter` inserts exactly one combined
`aformat` node when at least one of the sample-format, sample-rate, or
channel-layout negotiations returns a constraint, and none when all three
are unconstrained.  The node's argument string is the colon-joined list of
`key=value` clauses of exactly the constrained attributes, with no
trailing separator.  The hypotheses name the three negotiation results the
code computes (the channel-layout one reading the codec field after the
default-layout rewrite). -/
theorem configure_output_audio_filter_spec (gnF gnR : Int → String)
    (gnL : Nat → String) (defaultLayout : Int → Nat) (ost : OAStream) (p : Nat)
    (f r L : Option String)
    (hf : f = choose_sample_fmts gnF
      { codecVal := ost.codec_sample_fmt,
        enc := ost.enc.map (fun e => e.sample_fmts) })
    (hr : r = choose_sample_rates gnR
      { codecVal := ost.codec_sample_rate,
        enc := ost.enc.map (fun e => e.supported_samplerates) })
    (hL : L = choose_channel_layouts gnL
      { codecVal :=
          (if ost.codec_channels ≠ 0 ∧ ost.codec_channel_layout = 0 then
            defaultLayout ost.codec_channels else ost.codec_channel_layout),
        enc := ost.enc.map (fun e => e.channel_layouts) }) :
    (configure_output_audio_filter gnF gnR gnL defaultLayout ost p).nodes.filter
        (fun n => n.ftype == "aformat")
      = (if f.isSome ∨ r.isSome ∨ L.isSome then
          [{ ftype := "aformat",
             args := String.mk (joinWith ':' (aformatClauses f r L)),
             opts := [] }]
        else []) := by
  subst hf hr hL
  simp only [configure_output_audio_filter]
  rw [filter_aformat_chain]
  by_cases hc : (choose_sample_fmts gnF
        { codecVal := ost.codec_sample_fmt,
          enc := ost.enc.map (fun e => e.sample_fmts) }).isSome
      ∨ (choose_sample_rates gnR
        { codecVal := ost.codec_sample_rate,
          enc := ost.enc.map (fun e => e.supported_samplerates) }).isSome
      ∨ (choose_channel_layouts gnL
        { codecVal :=
            (if ost.codec_channels ≠ 0 ∧ ost.codec_channel_layout = 0 then
              defaultLayout ost.codec_channels else ost.codec_channel_layout),
          enc := ost.enc.map (fun e => e.channel_layouts) }).isSome
  · rw [if_pos hc, if_pos hc, aformatArgs,
      sepConcat_dropLast ':' _ (aformatClauses_ne_nil _ _ _ hc)]
  · rw [if_neg hc, if_neg hc]

theorem configure_output_audio_filter_spec_witness :
    (configure_output_audio_filter (fun _ : Int => "f") (fun _ : Int => "n")
        (fun _ : Nat => "c") (fun _ : Int => 3)
        { codec_channels := 0, codec_channel_layout := 0, codec_sample_fmt := -1,
          codec_sample_rate := 0,
          enc := some { sample_fmts := none,
                        supported_samplerates := some [44100, 48000],
                        channel_layouts := none },
          of := { recording_time := INT64_MAX, start_time := 0 } } 0).nodes.filter
        (fun n => n.ftype == "aformat")
      = (if (none : Option String).isSome ∨ (some "n|n" : Option String).isSome
            ∨ (none : Option String).isSome then
          [{ ftype := "aformat",
             args := String.mk (joinWith ':'
               (aformatClauses none (some "n|n") none)),
             opts := [] }]
        else []) :=
  configure_output_audio_filter_spec (fun _ : Int => "f") (fun _ : Int => "n")
    (fun _ : Nat => "c") (fun _ : Int => 3)
    { codec_channels := 0, codec_channel_layout := 0, codec_sample_fmt := -1,
      codec_sample_rate := 0,
      enc := some { sample_fmts := none,
                    supported_samplerates := some [44100, 48000],
                    channel_layouts := none },
      of := { recording_time := INT64_MAX, start_time := 0 } } 0
    none (some "n|n") none (by decide) (by decide) (by decide)

end AvconvFilter
